import Mathlib

/-!
Verification of the multi-server configuration core of the n8n-monitor app.

The embedding models the storage module (`getServers`, `saveServer`,
`removeServer`, `setActiveServerId`, `getActiveServerId`, `getN8nConfig`)
and the URL normalization of `handleSave` in `setup.tsx`.

The secure key-value store is modelled as a record with one slot per storage
key.  The serialized server list is abstracted at the serialization boundary:
`SlotVal.absent` is a missing (or empty-string, hence falsy) value,
`SlotVal.bad` a present value that fails to deserialize as a server array, and
`SlotVal.good l` a present serialization of the list `l`.  Store faults are
modelled explicitly: `Faults` lists the keys whose get/set/delete calls throw
a storage error.  Generated uuids are passed in as explicit parameters
(`fid`, `mfid`); freshness becomes a hypothesis where a claim needs it.
JavaScript truthiness checks of the source (`if (config.id)`,
`if (activeId)`, `name || 'New Server'`, `legacyUrl && legacyKey`) are
modelled by testing the optional string for presence and non-emptiness.
-/

set_option autoImplicit false

namespace N8nMonitor

/-- The storage keys of `STORAGE_KEYS` in the source (legacy url, legacy api
key, serialized server list, active server id, onboarding flag). -/
inductive Key where
  | serverUrl
  | apiKey
  | servers
  | activeServerId
  | onboardingCompleted
deriving DecidableEq, Repr, BEq

/-- `N8nServer`: a persisted server entry (all fields required). -/
structure N8nServer where
  id : String
  name : String
  serverUrl : String
  apiKey : String
deriving DecidableEq, Repr

/-- `N8nConfig`: the argument of `saveServer`; `id` and `name` are optional. -/
structure N8nConfig where
  id : Option String
  name : Option String
  serverUrl : String
  apiKey : String
deriving DecidableEq, Repr

/-- The value held under the server-list key, abstracted at the JSON
serialization boundary. -/
inductive SlotVal where
  | absent
  | bad
  | good (l : List N8nServer)
deriving DecidableEq, Repr

/-- The secure key-value store, one slot per storage key. -/
structure Store where
  legacyUrl : Option String
  legacyKey : Option String
  servers : SlotVal
  activeId : Option String
  onboarding : Option String
deriving DecidableEq, Repr

/-- Which store primitives fail with a storage error: keys whose `get`,
`set` or `delete` throws. -/
structure Faults where
  getFails : List Key
  setFails : List Key
  delFails : List Key
deriving DecidableEq, Repr

/-- A fully functional store: no primitive fails. -/
def noFaults : Faults := ⟨[], [], []⟩

/-- JavaScript truthiness of an optional string: `null`, `undefined` and
`""` are falsy. -/
def truthy : Option String → Bool
  | none => false
  | some s => s != ""

/-- JavaScript `o || d` on an optional string: the default `d` is taken when
`o` is absent or the empty string. -/
def jsOr (o : Option String) (d : String) : String :=
  match o with
  | none => d
  | some s => if s = "" then d else s

/-- `getActiveServerId`: `SecureStore.getItemAsync(ACTIVE_SERVER_ID)`;
throws (`Except.error`) when the get of that key faults. -/
def getActiveServerId (f : Faults) (st : Store) : Except Unit (Option String) :=
  if f.getFails.contains Key.activeServerId then Except.error ()
  else Except.ok st.activeId

/-- `setActiveServerId`: `SecureStore.setItemAsync(ACTIVE_SERVER_ID, id)`;
on a set fault the error carries the unchanged store. -/
def setActiveServerId (f : Faults) (id : String) (st : Store) : Except Store Store :=
  if f.setFails.contains Key.activeServerId then Except.error st
  else Except.ok { st with activeId := some id }

/-- `SecureStore.deleteItemAsync(ACTIVE_SERVER_ID)` as used by
`removeServer`. -/
def deleteActiveServerId (f : Faults) (st : Store) : Except Store Store :=
  if f.delFails.contains Key.activeServerId then Except.error st
  else Except.ok { st with activeId := none }

/-- `saveServerList`: `setItemAsync(SERVERS, JSON.stringify(servers))`. -/
def saveServerList (f : Faults) (l : List N8nServer) (st : Store) : Except Store Store :=
  if f.setFails.contains Key.servers then Except.error st
  else Except.ok { st with servers := SlotVal.good l }

/-- `getServers` (src/unnamed/part_001 lines 191-219).  `fid` is the uuid the
legacy migration would use.  The whole body is wrapped in try/catch returning
`[]`, so the result is a plain pair (returned list, store after the call);
a fault caught mid-migration leaves the partial writes in place. -/
def getServers (fid : String) (f : Faults) (st : Store) : List N8nServer × Store :=
  if f.getFails.contains Key.servers then ([], st)
  else
    match st.servers with
    | SlotVal.good l => (l, st)
    | SlotVal.bad => ([], st)
    | SlotVal.absent =>
      if f.getFails.contains Key.serverUrl || f.getFails.contains Key.apiKey then ([], st)
      else
        match st.legacyUrl, st.legacyKey with
        | some u, some k =>
          if u != "" && k != "" then
            let newServer : N8nServer :=
              { id := fid, name := "My n8n Server", serverUrl := u, apiKey := k }
            match saveServerList f [newServer] st with
            | Except.error st1 => ([], st1)
            | Except.ok st1 =>
              match setActiveServerId f newServer.id st1 with
              | Except.error st2 => ([], st2)
              | Except.ok st2 => ([newServer], st2)
          else ([], st)
        | some _, none => ([], st)
        | none, _ => ([], st)

/-- The entry written by `saveServer`'s update branch:
`servers[index] = { ...servers[index], ...config }` — fields present in
`config` overwrite, absent optional fields keep the prior value. -/
def overlayEntry (s : N8nServer) (cfg : N8nConfig) : N8nServer :=
  { id := cfg.id.getD s.id, name := cfg.name.getD s.name,
    serverUrl := cfg.serverUrl, apiKey := cfg.apiKey }

/-- The entry pushed by `saveServer`'s id-provided-but-not-found fallback:
`{ ...config, id: config.id, name: config.name || 'n8n Server' }`. -/
def fallbackEntry (cfg : N8nConfig) (cid : String) : N8nServer :=
  { id := cid, name := jsOr cfg.name "n8n Server",
    serverUrl := cfg.serverUrl, apiKey := cfg.apiKey }

/-- The update-or-append step of `saveServer`'s id-provided branch:
`findIndex` then replace in place, or push the fallback entry at the end
when no entry has the supplied id. -/
def upsertInList (cfg : N8nConfig) (cid : String) : List N8nServer → List N8nServer
  | [] => [fallbackEntry cfg cid]
  | s :: rest =>
    if s.id = cid then overlayEntry s cfg :: rest
    else s :: upsertInList cfg cid rest

/-- The entry pushed by `saveServer`'s add-new branch. -/
def newEntry (fid : String) (cfg : N8nConfig) : N8nServer :=
  { id := fid, name := jsOr cfg.name "New Server",
    serverUrl := cfg.serverUrl, apiKey := cfg.apiKey }

/-- `saveServer` (src/unnamed/part_001 lines 231-260).  `fid` is the uuid for
a newly added entry, `mfid` the uuid the inner `getServers` migration would
use.  `if (config.id)` is a truthiness test, so a supplied empty-string id
takes the add-new branch.  Store faults propagate (`Except.error` carries the
store at the moment of the throw). -/
def saveServer (fid mfid : String) (f : Faults) (cfg : N8nConfig) (st : Store) :
    Except Store Store :=
  let res := getServers mfid f st
  let servers := res.1
  let st1 := res.2
  if truthy cfg.id then
    saveServerList f (upsertInList cfg (cfg.id.getD "") servers) st1
  else
    let ns := newEntry fid cfg
    let servers2 := servers ++ [ns]
    if servers2.length = 1 then
      match setActiveServerId f ns.id st1 with
      | Except.error st2 => Except.error st2
      | Except.ok st2 => saveServerList f servers2 st2
    else saveServerList f servers2 st1

/-- `removeServer` (src/unnamed/part_001 lines 265-279): filter the entries
with the given id out, persist, then repair the active pointer when it named
the removed id. -/
def removeServer (mfid : String) (f : Faults) (id : String) (st : Store) :
    Except Store Store :=
  let res := getServers mfid f st
  let servers := res.1
  let st1 := res.2
  let newServers := servers.filter (fun s => s.id != id)
  match saveServerList f newServers st1 with
  | Except.error st2 => Except.error st2
  | Except.ok st2 =>
    match getActiveServerId f st2 with
    | Except.error _ => Except.error st2
    | Except.ok activeId =>
      if activeId = some id then
        match newServers with
        | first :: _ => setActiveServerId f first.id st2
        | [] => deleteActiveServerId f st2
      else Except.ok st2

/-- `getN8nConfig` (src/unnamed/part_001 lines 298-315): the effective-config
resolver.  `if (activeId)` is a truthiness test, so an empty-string active id
falls back to the first entry.  The body is wrapped in try/catch returning
`null`. -/
def getN8nConfig (mfid : String) (f : Faults) (st : Store) :
    Option N8nServer × Store :=
  let res := getServers mfid f st
  let servers := res.1
  let st1 := res.2
  match servers with
  | [] => (none, st1)
  | first :: _ =>
    match getActiveServerId f st1 with
    | Except.error _ => (none, st1)
    | Except.ok activeId =>
      match activeId with
      | some aid =>
        if aid != "" then
          match servers.find? (fun s => s.id == aid) with
          | some activeServer => (some activeServer, st1)
          | none => (some first, st1)
        else (some first, st1)
      | none => (some first, st1)

/-! URL validation and normalization of `handleSave` in src/app/setup.tsx
(lines 211-259). -/

/-- ASCII lowercasing of one character (the case folding relevant both to
the regex `i` flag on `https?://` and to URL hostname lowercasing). -/
def charLower : Char → Char
  | 'A' => 'a' | 'B' => 'b' | 'C' => 'c' | 'D' => 'd' | 'E' => 'e' | 'F' => 'f'
  | 'G' => 'g' | 'H' => 'h' | 'I' => 'i' | 'J' => 'j' | 'K' => 'k' | 'L' => 'l'
  | 'M' => 'm' | 'N' => 'n' | 'O' => 'o' | 'P' => 'p' | 'Q' => 'q' | 'R' => 'r'
  | 'S' => 's' | 'T' => 't' | 'U' => 'u' | 'V' => 'v' | 'W' => 'w' | 'X' => 'x'
  | 'Y' => 'y' | 'Z' => 'z'
  | c => c

/-- Whitespace for the JavaScript `trim()` call (the claims' inputs contain
none, so the exact whitespace class is immaterial). -/
def isSpaceChar (c : Char) : Bool :=
  c == ' ' || c == '\t' || c == '\n' || c == '\r'

/-- `s.trim()` on the character list. -/
def trimChars (cs : List Char) : List Char :=
  ((cs.dropWhile isSpaceChar).reverse.dropWhile isSpaceChar).reverse

/-- Case-insensitive literal-prefix test on character lists (`p` is given
lowercase). -/
def startsWithCI (cs p : List Char) : Bool :=
  (cs.take p.length).map charLower == p

/-- Suffix test on character lists. -/
def endsWithChars (cs suf : List Char) : Bool :=
  cs.reverse.take suf.length == suf.reverse

/-- Drop the last `n` characters. -/
def dropRightChars (cs : List Char) (n : Nat) : List Char :=
  cs.take (cs.length - n)

/-- The test `/^https?:\/\/.+/i.test(s)`: an http or https scheme marker
followed by at least one character. -/
def urlPatternTest (cs : List Char) : Bool :=
  (startsWithCI cs "http://".data && cs.length > 7) ||
  (startsWithCI cs "https://".data && cs.length > 8)

/-- `replace(/\/$/, '')`: strip exactly one trailing slash. -/
def stripTrailingSlash (cs : List Char) : List Char :=
  if endsWithChars cs "/".data then dropRightChars cs 1 else cs

/-- `replace(/\/api\/v1\/?$/, '')`: strip a trailing `/api/v1` or
`/api/v1/` (the optional slash is consumed greedily). -/
def stripApiV1 (cs : List Char) : List Char :=
  if endsWithChars cs "/api/v1/".data then dropRightChars cs 8
  else if endsWithChars cs "/api/v1".data then dropRightChars cs 7
  else cs

/-- Whether the character list begins with `/workflow/` followed by at least
one non-slash character (the point where `/\/workflow\/[^/]+.*$/` can start
matching). -/
def workflowAt : List Char → Bool
  | '/' :: 'w' :: 'o' :: 'r' :: 'k' :: 'f' :: 'l' :: 'o' :: 'w' :: '/' :: d :: _ => d != '/'
  | _ => false

/-- `replace(/\/workflow\/[^/]+.*$/, '')`: cut the string at the leftmost
position where `/workflow/<non-slash>` begins (the rest of the match runs to
the end of the string). -/
def stripWorkflow : List Char → List Char
  | [] => []
  | c :: rest =>
    if workflowAt (c :: rest) then []
    else c :: stripWorkflow rest

/-- Models `new URL(cleanUrl)` followed by the reconstruction
`url.protocol + '//' + url.host` for inputs that begin with an http(s)
scheme marker: the scheme is lowercased, the host runs to the first `/`,
`?` or `#` and is lowercased (hostname lowercasing; ports are digits and
unaffected); an empty host is a parse failure. -/
def urlOrigin (cs : List Char) : Option (List Char) :=
  if startsWithCI cs "http://".data then
    let host := (cs.drop 7).takeWhile (fun c => c != '/' && c != '?' && c != '#')
    if host.isEmpty then none else some ("http://".data ++ host.map charLower)
  else if startsWithCI cs "https://".data then
    let host := (cs.drop 8).takeWhile (fun c => c != '/' && c != '?' && c != '#')
    if host.isEmpty then none else some ("https://".data ++ host.map charLower)
  else none

/-- The outcome of the URL validation/normalization portion of `handleSave`:
rejected by the `^https?://` pattern, rejected at the `new URL` parse, or
normalized to a clean origin. -/
inductive UrlCheck where
  | badPattern
  | badParse
  | ok (url : String)
deriving DecidableEq, Repr

/-- The URL pipeline of `handleSave` (setup.tsx lines 217-241): pattern
check on the trimmed input, strip one trailing slash, strip a trailing
`/api/v1(/)`, cut at `/workflow/<segment>`, then reconstruct
`scheme://host`. -/
def normalizeServerUrl (raw : String) : UrlCheck :=
  let s := trimChars raw.data
  if !(urlPatternTest s) then UrlCheck.badPattern
  else
    let c1 := stripTrailingSlash s
    let c2 := stripApiV1 c1
    let c3 := stripWorkflow c2
    match urlOrigin c3 with
    | none => UrlCheck.badParse
    | some cleanUrl => UrlCheck.ok (String.mk cleanUrl)

/-- The outcome of `handleSave` (setup.tsx lines 211-259) up to the
`saveServer` call: an empty-field alert, a URL rejection, or the
`N8nConfig` handed to `saveServer`. -/
inductive SaveOutcome where
  | missingFields
  | invalidPattern
  | invalidUrl
  | saved (cfg : N8nConfig)
deriving DecidableEq, Repr

/-- `handleSave` (setup.tsx lines 211-259): validate the three fields
non-empty after trimming, run the URL pipeline, and on success build the
config passed to `saveServer` (`id: editingId || undefined`). -/
def handleSave (name serverUrl apiKey : String) (editingId : Option String) :
    SaveOutcome :=
  if (trimChars serverUrl.data).isEmpty || (trimChars apiKey.data).isEmpty ||
      (trimChars name.data).isEmpty then
    SaveOutcome.missingFields
  else
    match normalizeServerUrl serverUrl with
    | UrlCheck.badPattern => SaveOutcome.invalidPattern
    | UrlCheck.badParse => SaveOutcome.invalidUrl
    | UrlCheck.ok cleanUrl =>
      SaveOutcome.saved
        { id := if truthy editingId then editingId else none,
          name := some (String.mk (trimChars name.data)),
          serverUrl := cleanUrl,
          apiKey := String.mk (trimChars apiKey.data) }

/-! Helper definitions and lemmas about the operations under a fault-free
store. -/

/-- The ids of a list of entries. -/
def serverIds (l : List N8nServer) : List String := l.map (fun s => s.id)

/-- The ids in the persisted server list of a store (`[]` when the list key
is absent or undeserializable). -/
def idsOf (st : Store) : List String :=
  match st.servers with
  | SlotVal.good l => serverIds l
  | _ => []

/-- The entry synthesized by the legacy migration. -/
def migratedEntry (fid u k : String) : N8nServer :=
  { id := fid, name := "My n8n Server", serverUrl := u, apiKey := k }

/-- Registry states reachable from an empty or absent server list by the
core operations, threading explicit generated ids: `fid` is the uuid a call
generates for a new entry, `mfid` the uuid the inner `getServers` migration
would use; freshness of the generated id is a hypothesis of the save step. -/
inductive Reach : Store → Prop where
  | init (st : Store) :
      st.servers = SlotVal.absent ∨ st.servers = SlotVal.good [] → Reach st
  | step_list (st : Store) (fid : String) :
      Reach st → Reach (getServers fid noFaults st).2
  | step_save (st st2 : Store) (fid mfid : String) (cfg : N8nConfig) :
      Reach st → fid ∉ idsOf st → fid ≠ mfid →
      saveServer fid mfid noFaults cfg st = Except.ok st2 → Reach st2
  | step_remove (st st2 : Store) (mfid id : String) :
      Reach st → removeServer mfid noFaults id st = Except.ok st2 → Reach st2

/-! Concrete fixtures shared by witnesses and counterexamples. -/

/-- A freshly initialized store: every slot empty. -/
def emptyStore : Store :=
  { legacyUrl := none, legacyKey := none, servers := SlotVal.absent,
    activeId := none, onboarding := none }

def entryA : N8nServer :=
  { id := "a", name := "A", serverUrl := "https://a.test", apiKey := "ka" }

def entryB : N8nServer :=
  { id := "b", name := "B", serverUrl := "https://b.test", apiKey := "kb" }

/-- An entry whose id is the empty string (only reachable through external
corruption of the serialized list; used to probe the resolver's truthiness
test). -/
def entryE : N8nServer :=
  { id := "", name := "E", serverUrl := "https://e.test", apiKey := "ke" }

/-- A corrupted store: the pointer holds the empty string while an entry
with the empty-string id sits second in the list. -/
def storeEmptyPtr : Store :=
  { legacyUrl := none, legacyKey := none,
    servers := SlotVal.good [entryA, entryE],
    activeId := some "", onboarding := none }

/-- A config with no id, as built by the setup screen for a new server. -/
def freshConfig : N8nConfig :=
  { id := none, name := some "A", serverUrl := "https://a.test", apiKey := "k" }

/-- A faults configuration where the get of the server-list key throws. -/
def faultsGet : Faults := { getFails := [Key.servers], setFails := [], delFails := [] }

/-- A faults configuration where the set of the server-list key throws. -/
def faultsSet : Faults := { getFails := [], setFails := [Key.servers], delFails := [] }

/-- A faults configuration where the delete of the active-pointer key
throws. -/
def faultsDel : Faults :=
  { getFails := [], setFails := [], delFails := [Key.activeServerId] }

/-- A one-entry store whose active pointer names its only entry. -/
def storeOnlyA : Store :=
  { legacyUrl := none, legacyKey := none, servers := SlotVal.good [entryA],
    activeId := some "a", onboarding := none }

/-- A store still on the legacy single-server layout. -/
def legacyStore : Store :=
  { legacyUrl := some "https://legacy.test", legacyKey := some "lk",
    servers := SlotVal.absent, activeId := none, onboarding := none }

/-- The store after migrating `legacyStore` (migration uuid `"M"`) and then
appending a fresh server (uuid `"F"`) in the same `saveServer` call. -/
def storeMigSave : Store :=
  { legacyUrl := some "https://legacy.test", legacyKey := some "lk",
    servers := SlotVal.good
      [migratedEntry "M" "https://legacy.test" "lk", newEntry "F" freshConfig],
    activeId := some "M", onboarding := none }

/-- A config updating entry `"a"` in place. -/
def updateConfigA : N8nConfig :=
  { id := some "a", name := some "A2", serverUrl := "https://a2.test",
    apiKey := "ka2" }

theorem saveServerList_noFaults (l : List N8nServer) (st : Store) :
    saveServerList noFaults l st = Except.ok { st with servers := SlotVal.good l } := rfl

theorem setActiveServerId_noFaults (id : String) (st : Store) :
    setActiveServerId noFaults id st = Except.ok { st with activeId := some id } := rfl

theorem deleteActiveServerId_noFaults (st : Store) :
    deleteActiveServerId noFaults st = Except.ok { st with activeId := none } := rfl

theorem getActiveServerId_noFaults (st : Store) :
    getActiveServerId noFaults st = Except.ok st.activeId := rfl

theorem getServers_good (fid : String) (st : Store) (l : List N8nServer)
    (h : st.servers = SlotVal.good l) : getServers fid noFaults st = (l, st) := by
  simp [getServers, noFaults, h]

theorem getServers_bad (fid : String) (st : Store)
    (h : st.servers = SlotVal.bad) : getServers fid noFaults st = ([], st) := by
  simp [getServers, noFaults, h]

theorem getServers_absent_nomig (fid : String) (st : Store)
    (h : st.servers = SlotVal.absent)
    (hleg : (truthy st.legacyUrl && truthy st.legacyKey) = false) :
    getServers fid noFaults st = ([], st) := by
  cases hu : st.legacyUrl with
  | none => simp [getServers, noFaults, h, hu]
  | some u =>
    cases hk : st.legacyKey with
    | none => simp [getServers, noFaults, h, hu, hk]
    | some k =>
      rw [hu, hk] at hleg
      simp only [truthy, Bool.and_eq_false_iff] at hleg
      simp [getServers, noFaults, h, hu, hk]
      intro h1 h2
      rcases hleg with h3 | h3
      · exact absurd h1 (by simpa using h3)
      · exact absurd h2 (by simpa using h3)

theorem getServers_migrate (fid u k : String) (st : Store)
    (hs : st.servers = SlotVal.absent) (hu : st.legacyUrl = some u)
    (hk : st.legacyKey = some k) (hu2 : u ≠ "") (hk2 : k ≠ "") :
    getServers fid noFaults st =
      ([migratedEntry fid u k],
       { st with servers := SlotVal.good [migratedEntry fid u k],
                 activeId := some fid }) := by
  simp [getServers, noFaults, hs, hu, hk, hu2, hk2, saveServerList,
    setActiveServerId, migratedEntry]

/-- Exhaustive characterization of `getServers` on a fault-free store:
either the stored list is returned unchanged, or nothing is returned and
nothing written, or the legacy migration fires. -/
theorem getServers_cases (fid : String) (st : Store) :
    (∃ l, st.servers = SlotVal.good l ∧ getServers fid noFaults st = (l, st)) ∨
    getServers fid noFaults st = ([], st) ∨
    (∃ u k, st.servers = SlotVal.absent ∧ st.legacyUrl = some u ∧
      st.legacyKey = some k ∧ u ≠ "" ∧ k ≠ "" ∧
      getServers fid noFaults st =
        ([migratedEntry fid u k],
         { st with servers := SlotVal.good [migratedEntry fid u k],
                   activeId := some fid })) := by
  cases hs : st.servers with
  | good l => exact Or.inl ⟨l, rfl, getServers_good fid st l hs⟩
  | bad => exact Or.inr (Or.inl (getServers_bad fid st hs))
  | absent =>
    cases hleg : truthy st.legacyUrl && truthy st.legacyKey with
    | false => exact Or.inr (Or.inl (getServers_absent_nomig fid st hs hleg))
    | true =>
      rw [Bool.and_eq_true] at hleg
      obtain ⟨hu, hk⟩ := hleg
      cases hu2 : st.legacyUrl with
      | none => rw [hu2] at hu; simp [truthy] at hu
      | some u =>
        cases hk2 : st.legacyKey with
        | none => rw [hk2] at hk; simp [truthy] at hk
        | some k =>
          rw [hu2] at hu; rw [hk2] at hk
          simp only [truthy, bne_iff_ne, ne_eq] at hu hk
          refine Or.inr (Or.inr ⟨u, k, rfl, rfl, rfl, hu, hk, ?_⟩)
          rw [getServers_migrate fid u k st hs hu2 hk2 hu hk, hu2, hk2]

/-- Net effect of `saveServer` on a fault-free store: always succeeds, and
the resulting store is the post-`getServers` store with the updated list
written back, with the active pointer additionally set in the add-new
first-entry case. -/
theorem saveServer_eq (fid mfid : String) (cfg : N8nConfig) (st : Store) :
    saveServer fid mfid noFaults cfg st =
      Except.ok
        (let res := getServers mfid noFaults st
         if truthy cfg.id then
           { res.2 with
             servers := SlotVal.good (upsertInList cfg (cfg.id.getD "") res.1) }
         else if (res.1 ++ [newEntry fid cfg]).length = 1 then
           { res.2 with
             servers := SlotVal.good (res.1 ++ [newEntry fid cfg]),
             activeId := some fid }
         else
           { res.2 with
             servers := SlotVal.good (res.1 ++ [newEntry fid cfg]) }) := by
  cases hid : truthy cfg.id with
  | true => simp [saveServer, hid, saveServerList_noFaults]
  | false =>
    by_cases hnil : (getServers mfid noFaults st).1 = []
    · simp [saveServer, hid, hnil, saveServerList_noFaults, setActiveServerId_noFaults,
        newEntry]
    · simp [saveServer, hid, hnil, saveServerList_noFaults]

/-- Net effect of `removeServer` on a fault-free store: always succeeds,
writes back the filtered list, and repairs the active pointer exactly when
it named the removed id. -/
theorem removeServer_eq (mfid id : String) (st : Store) :
    removeServer mfid noFaults id st =
      Except.ok
        (let res := getServers mfid noFaults st
         let nl := res.1.filter (fun s => s.id != id)
         { res.2 with
           servers := SlotVal.good nl,
           activeId :=
             if res.2.activeId = some id then
               match nl with
               | first :: _ => some first.id
               | [] => none
             else res.2.activeId }) := by
  by_cases hact : (getServers mfid noFaults st).2.activeId = some id
  · cases hnl : (getServers mfid noFaults st).1.filter (fun s => s.id != id) with
    | nil =>
      simp [removeServer, saveServerList_noFaults, getActiveServerId_noFaults, hnl,
        hact, deleteActiveServerId_noFaults]
    | cons first rest =>
      simp [removeServer, saveServerList_noFaults, getActiveServerId_noFaults, hnl,
        hact, setActiveServerId_noFaults]
  · simp [removeServer, saveServerList_noFaults, getActiveServerId_noFaults, hact]

/-- If the registry view is empty, `getServers` performed no store writes
(every branch returning `[]` leaves the store untouched). -/
theorem getServers_empty_frame (fid : String) (st : Store)
    (h : (getServers fid noFaults st).1 = []) :
    getServers fid noFaults st = ([], st) := by
  rcases getServers_cases fid st with ⟨l, hs, heq⟩ | heq | ⟨u, k, _, _, _, _, _, heq⟩
  · rw [heq] at h ⊢; simp only [Prod.fst] at h; simp [h]
  · exact heq
  · rw [heq] at h; simp at h

/-- The ids written by the update-or-append step: unchanged when the
supplied id already occurs, otherwise the supplied id is appended. -/
theorem serverIds_cons (s : N8nServer) (l : List N8nServer) :
    serverIds (s :: l) = s.id :: serverIds l := rfl

theorem upsertInList_ids (cfg : N8nConfig) (cid : String) (hc : cfg.id = some cid)
    (l : List N8nServer) :
    serverIds (upsertInList cfg cid l) =
      if cid ∈ serverIds l then serverIds l else serverIds l ++ [cid] := by
  induction l with
  | nil => simp [upsertInList, serverIds, fallbackEntry]
  | cons s rest ih =>
    by_cases h : s.id = cid
    · have h1 : upsertInList cfg cid (s :: rest) = overlayEntry s cfg :: rest := by
        simp [upsertInList, h]
      have hmem : cid ∈ serverIds (s :: rest) := by
        rw [serverIds_cons, h]; exact List.mem_cons_self _ _
      rw [h1, if_pos hmem, serverIds_cons, serverIds_cons]
      have h2 : (overlayEntry s cfg).id = cid := by simp [overlayEntry, hc]
      rw [h2, h]
    · have h1 : upsertInList cfg cid (s :: rest) = s :: upsertInList cfg cid rest := by
        simp [upsertInList, h]
      rw [h1, serverIds_cons, ih]
      by_cases hm : cid ∈ serverIds rest
      · have hmem : cid ∈ serverIds (s :: rest) := by
          rw [serverIds_cons]; exact List.mem_cons_of_mem _ hm
        rw [if_pos hm, if_pos hmem, serverIds_cons]
      · have hmem : cid ∉ serverIds (s :: rest) := by
          rw [serverIds_cons]
          intro hcm
          rcases List.mem_cons.mp hcm with h2 | h2
          · exact h h2.symm
          · exact hm h2
        rw [if_neg hm, if_neg hmem, serverIds_cons, List.cons_append]

theorem upsertInList_nodup (cfg : N8nConfig) (cid : String) (hc : cfg.id = some cid)
    (l : List N8nServer) (h : (serverIds l).Nodup) :
    (serverIds (upsertInList cfg cid l)).Nodup := by
  rw [upsertInList_ids cfg cid hc l]
  by_cases hm : cid ∈ serverIds l
  · simpa [hm] using h
  · simp only [if_neg hm]
    rw [List.nodup_append]
    exact ⟨h, List.nodup_singleton cid,
      fun x hx hx1 => hm (by rwa [List.mem_singleton.mp hx1] at hx)⟩

theorem serverIds_filter_nodup (p : N8nServer → Bool) (l : List N8nServer)
    (h : (serverIds l).Nodup) : (serverIds (l.filter p)).Nodup := by
  simp only [serverIds] at h ⊢
  exact List.Nodup.sublist (List.Sublist.map (fun s => s.id) (List.filter_sublist l)) h

/-- Every id in the registry view of `getServers` is either already
persisted or the freshly generated migration id. -/
theorem view_ids_sub (fid : String) (st : Store) (x : String)
    (hx : x ∈ serverIds (getServers fid noFaults st).1) :
    x ∈ idsOf st ∨ x = fid := by
  rcases getServers_cases fid st with ⟨l, hs, heq⟩ | heq | ⟨u, k, _, _, _, _, _, heq⟩
  · rw [heq] at hx; exact Or.inl (by rw [idsOf, hs]; exact hx)
  · rw [heq] at hx; simp [serverIds] at hx
  · rw [heq] at hx; simp [serverIds, migratedEntry] at hx; exact Or.inr hx

/-- The registry view of `getServers` has no duplicate ids whenever the
persisted list has none. -/
theorem view_ids_nodup (fid : String) (st : Store)
    (h : (idsOf st).Nodup) : (serverIds (getServers fid noFaults st).1).Nodup := by
  rcases getServers_cases fid st with ⟨l, hs, heq⟩ | heq | ⟨u, k, _, _, _, _, _, heq⟩
  · rw [heq]; rw [idsOf, hs] at h; exact h
  · rw [heq]; simp [serverIds]
  · rw [heq]; simp [serverIds]

/-- `getServers` either leaves the store untouched or installs the
one-entry migrated list. -/
theorem getServers_post_ids (fid : String) (st : Store) :
    (getServers fid noFaults st).2 = st ∨
    idsOf (getServers fid noFaults st).2 = [fid] := by
  rcases getServers_cases fid st with ⟨l, hs, heq⟩ | heq | ⟨u, k, _, _, _, _, _, heq⟩
  · rw [heq]
    exact Or.inl rfl
  · rw [heq]
    exact Or.inl rfl
  · rw [heq]
    exact Or.inr (by simp [idsOf, serverIds, migratedEntry])

theorem serverIds_append (l1 l2 : List N8nServer) :
    serverIds (l1 ++ l2) = serverIds l1 ++ serverIds l2 := by
  simp [serverIds]

/-- A successful `saveServer` with a fresh generated id keeps the persisted
ids duplicate-free. -/
theorem saveServer_ok_ids (fid mfid : String) (cfg : N8nConfig) (st st2 : Store)
    (hfresh : fid ∉ idsOf st) (hneq : fid ≠ mfid)
    (hnd : (idsOf st).Nodup)
    (heq : saveServer fid mfid noFaults cfg st = Except.ok st2) :
    (idsOf st2).Nodup := by
  rw [saveServer_eq] at heq
  have h2 := Except.ok.inj heq
  subst h2
  have hv : (serverIds (getServers mfid noFaults st).1).Nodup :=
    view_ids_nodup mfid st hnd
  have hfv : fid ∉ serverIds (getServers mfid noFaults st).1 := by
    intro hmem
    rcases view_ids_sub mfid st fid hmem with h | h
    · exact hfresh h
    · exact hneq h
  cases hid : truthy cfg.id with
  | true =>
    have hc : cfg.id = some (cfg.id.getD "") := by
      cases hcc : cfg.id with
      | none => rw [hcc] at hid; simp [truthy] at hid
      | some s => rfl
    simp only [hid, if_true, idsOf]
    exact upsertInList_nodup cfg (cfg.id.getD "") hc _ hv
  | false =>
    simp only [hid, Bool.false_eq_true, if_false]
    split
    · simp only [idsOf]
      rw [serverIds_append]
      rw [List.nodup_append]
      refine ⟨hv, List.nodup_singleton _, fun x hx hx1 => ?_⟩
      rw [List.mem_singleton.mp hx1] at hx
      exact hfv (by simpa [serverIds, newEntry] using hx)
    · simp only [idsOf]
      rw [serverIds_append]
      rw [List.nodup_append]
      refine ⟨hv, List.nodup_singleton _, fun x hx hx1 => ?_⟩
      rw [List.mem_singleton.mp hx1] at hx
      exact hfv (by simpa [serverIds, newEntry] using hx)

/-- A successful `removeServer` keeps the persisted ids duplicate-free. -/
theorem removeServer_ok_ids (mfid id : String) (st st2 : Store)
    (hnd : (idsOf st).Nodup)
    (heq : removeServer mfid noFaults id st = Except.ok st2) :
    (idsOf st2).Nodup := by
  rw [removeServer_eq] at heq
  have h2 := Except.ok.inj heq
  subst h2
  simp only [idsOf]
  exact serverIds_filter_nodup _ _ (view_ids_nodup mfid st hnd)

/-! The claims. -/

/-- C1 (amended): when the registry view is empty before the call,
`saveServer` appends the new entry, and auto-activates it exactly when the
caller supplied no (truthy) id: in the generated-id branch the active
pointer is set to the fresh id, while in the supplied-id fallback branch the
entry is appended but the active pointer is left unchanged. -/
theorem C1_first_entry_activation (fid mfid : String) (cfg : N8nConfig) (st : Store)
    (hempty : (getServers mfid noFaults st).1 = []) :
    (truthy cfg.id = false →
      saveServer fid mfid noFaults cfg st =
        Except.ok { st with servers := SlotVal.good [newEntry fid cfg],
                            activeId := some fid }) ∧
    (truthy cfg.id = true →
      saveServer fid mfid noFaults cfg st =
        Except.ok { st with
          servers := SlotVal.good [fallbackEntry cfg (cfg.id.getD "")] }) := by
  have hfr := getServers_empty_frame mfid st hempty
  constructor
  · intro hid
    simp [saveServer, hfr, hid, saveServerList_noFaults, setActiveServerId_noFaults,
      newEntry]
  · intro hid
    simp [saveServer, hfr, hid, saveServerList_noFaults, upsertInList]

/-- C1 counterexample: on an empty store, a `saveServer` call that supplies
the id `"X"` appends the entry but leaves the active pointer unset, so
`getActiveServerId` does not equal the new entry's id afterwards. -/
theorem C1_counterexample :
    (getServers "M" noFaults emptyStore).1 = [] ∧
    saveServer "F" "M" noFaults
        { id := some "X", name := some "A",
          serverUrl := "https://a.test", apiKey := "k" } emptyStore =
      Except.ok
        { legacyUrl := none, legacyKey := none,
          servers := SlotVal.good
            [{ id := "X", name := "A", serverUrl := "https://a.test", apiKey := "k" }],
          activeId := none, onboarding := none } ∧
    (none : Option String) ≠ some "X" := by
  refine ⟨rfl, ?_, by decide⟩
  rfl

/-- C1 witness: instantiating the amended theorem on the empty store with a
no-id config activates the fresh entry. -/
theorem C1_witness :
    (getServers "M" noFaults emptyStore).1 = [] ∧
    saveServer "F" "M" noFaults freshConfig emptyStore =
      Except.ok { emptyStore with
        servers := SlotVal.good [newEntry "F" freshConfig],
        activeId := some "F" } :=
  ⟨rfl, (C1_first_entry_activation "F" "M" freshConfig emptyStore rfl).1 rfl⟩

/-- C2: `removeServer id` persists exactly the entries of the registry view
whose id differs from `id`, and repairs the active pointer: when the removed
id was the pointer value, the pointer is repointed to the first remaining
entry, or deleted (so `getActiveServerId` yields `none`) when no entry
remains; otherwise the pointer is untouched. -/
theorem C2_removeServer_repair (mfid id : String) (st : Store) :
    ∃ st2,
      removeServer mfid noFaults id st = Except.ok st2 ∧
      st2.servers =
        SlotVal.good ((getServers mfid noFaults st).1.filter (fun s => s.id != id)) ∧
      st2.activeId =
        (if (getServers mfid noFaults st).2.activeId = some id then
          match (getServers mfid noFaults st).1.filter (fun s => s.id != id) with
          | first :: _ => some first.id
          | [] => none
        else (getServers mfid noFaults st).2.activeId) ∧
      getActiveServerId noFaults st2 = Except.ok st2.activeId :=
  ⟨_, removeServer_eq mfid id st, rfl, rfl, getActiveServerId_noFaults _⟩

/-- C3 counterexample: with the persisted list `[entryA, entryE]` where
`entryE` has the empty string as id, and the stored active id equal to that
empty string, the resolver does not return the entry whose id equals the
stored active id (`entryE`) but the first entry (`entryA`): the truthiness
test `if (activeId)` treats the empty-string pointer as unset. -/
theorem C3_counterexample :
    storeEmptyPtr.servers = SlotVal.good [entryA, entryE] ∧
    storeEmptyPtr.activeId = some "" ∧ entryE.id = "" ∧ entryA ≠ entryE ∧
    (getN8nConfig "M" noFaults storeEmptyPtr).1 = some entryA := by
  refine ⟨rfl, rfl, rfl, by decide, ?_⟩
  decide

/-- C3 (amended): for every store whose persisted list is non-empty, the
resolver returns the entry whose id equals the stored active id when the
stored active id is non-empty and such an entry exists; in every other case
— pointer unset, pointer equal to the empty string (treated as unset by the
code's truthiness test, even when an entry with empty id exists), or
pointer naming no entry — it returns the first entry.  It performs no store
writes, so the (possibly stale) active pointer is still reported by
`getActiveServerId` afterwards. -/
theorem C3_resolver_readonly (mfid : String) (st : Store) (first : N8nServer)
    (rest : List N8nServer) (hs : st.servers = SlotVal.good (first :: rest)) :
    getN8nConfig mfid noFaults st =
      ((match st.activeId with
        | some aid =>
          if aid ≠ "" then
            match (first :: rest).find? (fun s => s.id == aid) with
            | some e => some e
            | none => some first
          else some first
        | none => some first), st) ∧
    getActiveServerId noFaults (getN8nConfig mfid noFaults st).2 =
      Except.ok st.activeId := by
  have hmain : getN8nConfig mfid noFaults st =
      ((match st.activeId with
        | some aid =>
          if aid ≠ "" then
            match (first :: rest).find? (fun s => s.id == aid) with
            | some e => some e
            | none => some first
          else some first
        | none => some first), st) := by
    cases ha : st.activeId with
    | none =>
      simp [getN8nConfig, getServers_good mfid st _ hs, getActiveServerId_noFaults, ha]
    | some aid =>
      by_cases haid : aid = ""
      · simp [getN8nConfig, getServers_good mfid st _ hs, getActiveServerId_noFaults,
          ha, haid]
      · cases hf : (first :: rest).find? (fun s => s.id == aid) with
        | none =>
          simp [getN8nConfig, getServers_good mfid st _ hs, getActiveServerId_noFaults,
            ha, haid, hf]
        | some e =>
          simp [getN8nConfig, getServers_good mfid st _ hs, getActiveServerId_noFaults,
            ha, haid, hf]
  refine ⟨hmain, ?_⟩
  rw [hmain]
  exact getActiveServerId_noFaults st

/-- C3 witness: two instantiations of the amended theorem.  A store whose
list holds only `entryB` while the pointer still names the externally
removed `"a"`: resolution returns `entryB` and the stale pointer survives.
And the corrupted empty-string-pointer store: resolution falls back to the
first entry `entryA` with no writes, and the empty-string pointer survives. -/
theorem C3_witness :
    (let st : Store :=
      { legacyUrl := none, legacyKey := none, servers := SlotVal.good [entryB],
        activeId := some "a", onboarding := none }
     getN8nConfig "M" noFaults st = (some entryB, st) ∧
       getActiveServerId noFaults (getN8nConfig "M" noFaults st).2 =
         Except.ok (some "a")) ∧
    (getN8nConfig "M" noFaults storeEmptyPtr = (some entryA, storeEmptyPtr) ∧
     getActiveServerId noFaults (getN8nConfig "M" noFaults storeEmptyPtr).2 =
       Except.ok (some "")) := by
  have h1 := C3_resolver_readonly "M"
    { legacyUrl := none, legacyKey := none, servers := SlotVal.good [entryB],
      activeId := some "a", onboarding := none }
    entryB [] rfl
  have h2 := C3_resolver_readonly "M" storeEmptyPtr entryA [entryE] rfl
  exact ⟨⟨h1.1.trans (by decide), h1.2⟩, ⟨h2.1.trans (by decide), h2.2⟩⟩

/-- C4: with the list key absent and both legacy values present and
non-empty, `getServers` synthesizes one entry named `"My n8n Server"`
carrying the legacy values under the fresh id `fid`, persists it as a
one-entry list, activates it, and returns it; the legacy slots still hold
their values afterwards. -/
theorem C4_legacy_migration (fid u k : String) (st : Store)
    (hs : st.servers = SlotVal.absent) (hu : st.legacyUrl = some u)
    (hk : st.legacyKey = some k) (hu2 : u ≠ "") (hk2 : k ≠ "") :
    getServers fid noFaults st =
      ([migratedEntry fid u k],
       { legacyUrl := some u, legacyKey := some k,
         servers := SlotVal.good [migratedEntry fid u k],
         activeId := some fid, onboarding := st.onboarding }) ∧
    migratedEntry fid u k =
      { id := fid, name := "My n8n Server", serverUrl := u, apiKey := k } := by
  constructor
  · rw [getServers_migrate fid u k st hs hu hk hu2 hk2, hu, hk]
  · rfl

/-- C4 witness. -/
theorem C4_witness :
    getServers "G" noFaults
        { legacyUrl := some "https://legacy.test", legacyKey := some "lk",
          servers := SlotVal.absent, activeId := none, onboarding := none } =
      ([migratedEntry "G" "https://legacy.test" "lk"],
       { legacyUrl := some "https://legacy.test", legacyKey := some "lk",
         servers := SlotVal.good [migratedEntry "G" "https://legacy.test" "lk"],
         activeId := some "G", onboarding := none }) :=
  (C4_legacy_migration "G" "https://legacy.test" "lk"
    { legacyUrl := some "https://legacy.test", legacyKey := some "lk",
      servers := SlotVal.absent, activeId := none, onboarding := none }
    rfl rfl rfl (by decide) (by decide)).1

/-- C5: migration is idempotent: under the migration preconditions the
first `getServers` returns the migrated one-entry list and persists it, and
a second call returns the very same one-entry list and changes nothing —
regardless of the uuid the second call would have generated. -/
theorem C5_migration_idempotence (fid fid2 u k : String) (st : Store)
    (hs : st.servers = SlotVal.absent) (hu : st.legacyUrl = some u)
    (hk : st.legacyKey = some k) (hu2 : u ≠ "") (hk2 : k ≠ "") :
    getServers fid noFaults st =
      ([migratedEntry fid u k],
       { st with servers := SlotVal.good [migratedEntry fid u k],
                 activeId := some fid }) ∧
    getServers fid2 noFaults
        { st with servers := SlotVal.good [migratedEntry fid u k],
                  activeId := some fid } =
      ([migratedEntry fid u k],
       { st with servers := SlotVal.good [migratedEntry fid u k],
                 activeId := some fid }) :=
  ⟨getServers_migrate fid u k st hs hu hk hu2 hk2, getServers_good fid2 _ _ rfl⟩

/-- C5 witness. -/
theorem C5_witness :
    (let st0 : Store :=
      { legacyUrl := some "https://legacy.test", legacyKey := some "lk",
        servers := SlotVal.absent, activeId := none, onboarding := none }
     let st1 : Store := { st0 with
        servers := SlotVal.good [migratedEntry "G" "https://legacy.test" "lk"],
        activeId := some "G" }
     getServers "G" noFaults st0 =
        ([migratedEntry "G" "https://legacy.test" "lk"], st1) ∧
       getServers "H" noFaults st1 =
        ([migratedEntry "G" "https://legacy.test" "lk"], st1)) :=
  C5_migration_idempotence "G" "H" "https://legacy.test" "lk"
    { legacyUrl := some "https://legacy.test", legacyKey := some "lk",
      servers := SlotVal.absent, activeId := none, onboarding := none }
    rfl rfl rfl (by decide) (by decide)

/-- C6: when the list key holds a serialized empty list, `getServers`
returns `[]` and performs no store writes — migration is not re-triggered
even with legacy values present, and this holds for every fault
configuration. -/
theorem C6_empty_list_no_migration (fid : String) (f : Faults) (st : Store)
    (h : st.servers = SlotVal.good []) :
    getServers fid f st = ([], st) := by
  cases hg : f.getFails.contains Key.servers with
  | true => simp [getServers, hg]
  | false => simp [getServers, hg, h]

/-- C6 witness: both legacy values are present and non-empty, yet the
present-but-empty list short-circuits migration. -/
theorem C6_witness :
    getServers "G" noFaults
        { legacyUrl := some "https://legacy.test", legacyKey := some "lk",
          servers := SlotVal.good [], activeId := none, onboarding := none } =
      ([], { legacyUrl := some "https://legacy.test", legacyKey := some "lk",
             servers := SlotVal.good [], activeId := none, onboarding := none }) :=
  C6_empty_list_no_migration "G" noFaults _ rfl

/-- C7: the literal URL-normalization cases: a trailing slash is stripped,
a trailing `/api/v1/` is stripped, a `/workflow/...` suffix is cut, and an
`ftp://` input fails the `^https?://` pattern check, in which case
`handleSave` rejects before building any config to persist. -/
theorem C7_url_normalization :
    normalizeServerUrl "https://n8n.example.com/" =
      UrlCheck.ok "https://n8n.example.com" ∧
    normalizeServerUrl "http://host:5678/api/v1/" = UrlCheck.ok "http://host:5678" ∧
    normalizeServerUrl "https://n8n.example.com/workflow/abc123/extra" =
      UrlCheck.ok "https://n8n.example.com" ∧
    normalizeServerUrl "ftp://bad.example.com" = UrlCheck.badPattern ∧
    handleSave "A" "ftp://bad.example.com" "k" none = SaveOutcome.invalidPattern := by
  refine ⟨?_, ?_, ?_, ?_, ?_⟩ <;> decide

/-- C8: `getServers` is fail-soft — a storage error on the get of the list
key, or an undeserializable stored value, yields the empty list — while the
mutating operations propagate store failures: a set failure on the list key
makes both `saveServer` and `removeServer` fail, and a delete failure on the
active-pointer key makes `removeServer` fail when it has to clear the
pointer after removing the last entry. -/
theorem C8_error_handling :
    (∀ fid f st, f.getFails.contains Key.servers = true ∨ st.servers = SlotVal.bad →
      (getServers fid f st).1 = []) ∧
    (∀ fid mfid f cfg st, f.setFails.contains Key.servers = true →
      ∃ e, saveServer fid mfid f cfg st = Except.error e) ∧
    (∀ mfid f i st, f.setFails.contains Key.servers = true →
      ∃ e, removeServer mfid f i st = Except.error e) ∧
    (∀ mfid f i st l, f.getFails = [] → f.setFails = [] →
      f.delFails.contains Key.activeServerId = true →
      st.servers = SlotVal.good l → st.activeId = some i →
      l.filter (fun s => s.id != i) = [] →
      ∃ e, removeServer mfid f i st = Except.error e) := by
  refine ⟨?_, ?_, ?_, ?_⟩
  · intro fid f st h
    rcases h with h | h
    · simp [getServers, h]
    · cases hg : f.getFails.contains Key.servers with
      | true => simp [getServers, hg]
      | false => simp [getServers, hg, h]
  · intro fid mfid f cfg st hset
    cases hid : truthy cfg.id with
    | true =>
      refine ⟨(getServers mfid f st).2, ?_⟩
      simp [saveServer, hid, saveServerList, hset]
    | false =>
      by_cases hnil : (getServers mfid f st).1 = []
      · cases hsa : f.setFails.contains Key.activeServerId with
        | true =>
          refine ⟨(getServers mfid f st).2, ?_⟩
          simp [saveServer, hid, hnil, setActiveServerId, hsa]
        | false =>
          refine ⟨{ (getServers mfid f st).2 with activeId := some fid }, ?_⟩
          simp [saveServer, hid, hnil, setActiveServerId, hsa, saveServerList, hset,
            newEntry]
      · refine ⟨(getServers mfid f st).2, ?_⟩
        simp [saveServer, hid, hnil, saveServerList, hset]
  · intro mfid f i st hset
    refine ⟨(getServers mfid f st).2, ?_⟩
    simp [removeServer, saveServerList, hset]
  · intro mfid f i st l hgf hsf hdel hs ha hfil
    have hg : f.getFails.contains Key.servers = false := by simp [hgf]
    have hg2 : f.getFails.contains Key.activeServerId = false := by simp [hgf]
    have hs2 : f.setFails.contains Key.servers = false := by simp [hsf]
    refine ⟨{ st with servers := SlotVal.good [] }, ?_⟩
    simp [removeServer, getServers, hg, hg2, hs, hs2, ha, hfil, saveServerList,
      getActiveServerId, deleteActiveServerId, hdel]

/-- C8 witness. -/
theorem C8_witness :
    (getServers "G" faultsGet emptyStore).1 = [] ∧
    (∃ e, saveServer "F" "M" faultsSet freshConfig emptyStore = Except.error e) ∧
    (∃ e, removeServer "M" faultsSet "a" storeOnlyA = Except.error e) ∧
    (∃ e, removeServer "M" faultsDel "a" storeOnlyA = Except.error e) :=
  ⟨C8_error_handling.1 "G" faultsGet emptyStore (Or.inl rfl),
   C8_error_handling.2.1 "F" "M" faultsSet freshConfig emptyStore rfl,
   C8_error_handling.2.2.1 "M" faultsSet "a" storeOnlyA rfl,
   C8_error_handling.2.2.2 "M" faultsDel "a" storeOnlyA [entryA]
     rfl rfl rfl rfl rfl (by decide)⟩

/-- C9: id uniqueness is an invariant of every reachable registry state
(under freshness of generated ids), and an update through `saveServer` whose
supplied id matches a persisted entry rewrites the list without changing any
id — in particular the matched entry keeps its id. -/
theorem C9_id_uniqueness :
    (∀ st, Reach st → (idsOf st).Nodup) ∧
    (∀ fid mfid cid : String, ∀ cfg : N8nConfig, ∀ st : Store,
      ∀ l : List N8nServer,
      st.servers = SlotVal.good l → cfg.id = some cid → cid ≠ "" →
      cid ∈ serverIds l →
      saveServer fid mfid noFaults cfg st =
        Except.ok { st with servers := SlotVal.good (upsertInList cfg cid l) } ∧
      serverIds (upsertInList cfg cid l) = serverIds l) := by
  constructor
  · intro st h
    induction h with
    | init st hinit =>
      rcases hinit with h | h <;> simp [idsOf, h, serverIds]
    | step_list st fid _ ih =>
      rcases getServers_post_ids fid st with h | h
      · rw [h]; exact ih
      · rw [h]; exact List.nodup_singleton fid
    | step_save st st2 fid mfid cfg _ hfresh hneq heq ih =>
      exact saveServer_ok_ids fid mfid cfg st st2 hfresh hneq ih heq
    | step_remove st st2 mfid id _ heq ih =>
      exact removeServer_ok_ids mfid id st st2 ih heq
  · intro fid mfid cid cfg st l hs hc hcne hmem
    have ht : truthy cfg.id = true := by simp [truthy, hc, hcne]
    constructor
    · have hgd : cfg.id.getD "" = cid := by rw [hc]; rfl
      simp [saveServer, getServers_good mfid st l hs, ht, saveServerList_noFaults, hgd]
    · rw [upsertInList_ids cfg cid hc l, if_pos hmem]

/-- C9 witness: the store reached by migrating a legacy config and then
saving a second, fresh-id server has duplicate-free ids; and a concrete
update by existing id keeps the id list unchanged. -/
theorem C9_witness :
    (saveServer "F" "M" noFaults freshConfig legacyStore = Except.ok storeMigSave ∧
     Reach storeMigSave ∧ (idsOf storeMigSave).Nodup) ∧
    (saveServer "F" "M" noFaults updateConfigA storeOnlyA =
      Except.ok { storeOnlyA with
        servers := SlotVal.good (upsertInList updateConfigA "a" [entryA]) } ∧
      serverIds (upsertInList updateConfigA "a" [entryA]) = serverIds [entryA]) := by
  have hsave : saveServer "F" "M" noFaults freshConfig legacyStore =
      Except.ok storeMigSave := rfl
  have hreach : Reach storeMigSave :=
    Reach.step_save legacyStore storeMigSave "F" "M" freshConfig
      (Reach.init legacyStore (Or.inl rfl)) (by decide) (by decide) hsave
  exact ⟨⟨hsave, hreach, C9_id_uniqueness.1 storeMigSave hreach⟩,
    C9_id_uniqueness.2 "F" "M" "a" updateConfigA storeOnlyA [entryA]
      rfl rfl (by decide) (by decide)⟩

/-- C10: a `saveServer` call whose supplied id matches an entry of the
persisted list takes the update branch, which never writes the
active-pointer key: the pointer, and hence `getActiveServerId`, is the same
after the call as before. -/
theorem C10_update_preserves_active (fid mfid cid : String) (cfg : N8nConfig)
    (st : Store) (l : List N8nServer) (hs : st.servers = SlotVal.good l)
    (hc : cfg.id = some cid) (hcne : cid ≠ "") (_hmem : cid ∈ serverIds l) :
    ∃ st2, saveServer fid mfid noFaults cfg st = Except.ok st2 ∧
      st2.activeId = st.activeId ∧
      getActiveServerId noFaults st2 = Except.ok st.activeId := by
  have ht : truthy cfg.id = true := by simp [truthy, hc, hcne]
  have hgd : cfg.id.getD "" = cid := by rw [hc]; rfl
  refine ⟨{ st with servers := SlotVal.good (upsertInList cfg cid l) }, ?_, rfl, ?_⟩
  · simp [saveServer, getServers_good mfid st l hs, ht, saveServerList_noFaults, hgd]
  · exact getActiveServerId_noFaults _

/-- C10 witness: updating the non-active entry `"a"` of a two-entry store
whose active pointer names `"b"` leaves the pointer at `"b"`. -/
theorem C10_witness :
    (let st : Store :=
      { legacyUrl := none, legacyKey := none,
        servers := SlotVal.good [entryA, entryB],
        activeId := some "b", onboarding := none }
     ∃ st2, saveServer "F" "M" noFaults
        { id := some "a", name := some "A2", serverUrl := "https://a2.test",
          apiKey := "ka2" } st = Except.ok st2 ∧
      st2.activeId = st.activeId ∧
      getActiveServerId noFaults st2 = Except.ok st.activeId) :=
  C10_update_preserves_active "F" "M" "a"
    { id := some "a", name := some "A2", serverUrl := "https://a2.test",
      apiKey := "ka2" }
    { legacyUrl := none, legacyKey := none,
      servers := SlotVal.good [entryA, entryB],
      activeId := some "b", onboarding := none }
    [entryA, entryB] rfl rfl (by decide) (by decide)

end N8nMonitor
